import Mathlib

/-!
Shallow embedding of the fiat rate aggregation and caching engine
(`FiatApiService` in the repository's fiat service module).

Modelling conventions:
* JavaScript numbers are modelled as `ℚ`.  JSON cannot encode `NaN` or
  `Infinity`, so values arriving from the parsed exchange-rate response are
  either numbers or non-numeric JSON values (`JsVal.other`).
* The HTTP fetch of one refresh attempt is modelled as
  `Option (List (String × JsVal))`: `none` stands for any thrown failure
  (network error, non-2xx status, or a response without a `rates` object),
  `some rates` for a 2xx response whose `rates` field is an object.
* `baseline?.fiat_rates` (read from the trusted static `baseline.json`) is
  modelled as `Option (List (String × ℚ))`; `none` covers a missing file or a
  missing `fiat_rates` field.  `FileManager.readJson` returns the parsed value
  or null, so the baseline read never throws.
* The mutable service fields (`cachedRates`, `fiatConfig`, `lastFetch`) are an
  explicit `ServiceState`; `Date` timestamps are integer milliseconds.
* JavaScript truthiness on a number is `≠ 0`; the source guards
  `rates[code] && typeof rates[code] === 'number'` and `if (baselineRate)`
  are translated accordingly.
-/

set_option autoImplicit false

deriving instance DecidableEq for Except

namespace AvgxFiat

/-- Mirrors the `FiatConfig` interface: `{code, name, weight}`. -/
structure FiatConfig where
  code : String
  name : String
  weight : ℚ
  deriving DecidableEq

/-- Mirrors `FiatData extends FiatConfig` with its `rate` field. -/
structure FiatData where
  code : String
  name : String
  weight : ℚ
  rate : ℚ
  deriving DecidableEq

/-- A JSON value found under a key of the response's `rates` object: either a
number or some non-numeric JSON value (string, object, array, bool, null). -/
inductive JsVal where
  | num (q : ℚ)
  | other
  deriving DecidableEq

/-- Mirrors the spread `{...config, rate}` building a `FiatData` from a
`FiatConfig` and a rate. -/
def withRate (c : FiatConfig) (r : ℚ) : FiatData :=
  ⟨c.code, c.name, c.weight, r⟩

/-- Mutable state of the `FiatApiService` instance. -/
structure ServiceState where
  cachedRates : List FiatData
  fiatConfig : List FiatConfig
  lastFetch : Option ℤ
  deriving DecidableEq

/-- `CACHE_DURATION = 60000` milliseconds. -/
def CACHE_DURATION : ℤ := 60000

/-- Mirrors `shouldRefreshCache`: true when no fetch ever completed or the
snapshot age strictly exceeds `CACHE_DURATION`. -/
def shouldRefreshCache (s : ServiceState) (now : ℤ) : Bool :=
  match s.lastFetch with
  | none => true
  | some t => decide (CACHE_DURATION < now - t)

/-- The static default-rate table inside `getDefaultRateForCurrency`.
Decimal source literals are written as exact rationals via `mkRat`
(`0.85` is `mkRat 85 100`, `8.5` is `mkRat 85 10`, and so on); `mkRat` is
used instead of `/` or decimal notation so that closed instances evaluate by
kernel reduction. -/
def defaultRates : List (String × ℚ) :=
  [("EUR", mkRat 85 100), ("CNY", mkRat 725 100), ("JPY", 110),
   ("GBP", mkRat 73 100), ("INR", 75), ("CAD", mkRat 125 100),
   ("AUD", mkRat 135 100), ("CHF", mkRat 90 100), ("SEK", mkRat 85 10),
   ("NOK", mkRat 88 10), ("DKK", mkRat 62 10), ("NZD", mkRat 145 100),
   ("SGD", mkRat 135 100), ("HKD", mkRat 78 10), ("KRW", 1200),
   ("BRL", mkRat 52 10), ("RUB", 75), ("ZAR", 15), ("AED", mkRat 367 100),
   ("SAR", mkRat 375 100), ("TRY", mkRat 85 10), ("MXN", 20), ("THB", 32),
   ("IDR", 14500), ("MYR", mkRat 42 10), ("PHP", 50), ("PLN", mkRat 38 10),
   ("HUF", 300), ("CZK", 22), ("CLP", 800), ("COP", 3800),
   ("ILS", mkRat 32 10), ("EGP", mkRat 157 10), ("PKR", 160), ("NGN", 410),
   ("KES", 110), ("BDT", 85), ("VND", 23000), ("ARS", 100),
   ("PEN", mkRat 37 10), ("QAR", mkRat 364 100), ("KWD", mkRat 30 100),
   ("BHD", mkRat 38 100), ("OMR", mkRat 38 100), ("MAD", mkRat 92 10),
   ("TND", mkRat 28 10), ("UAH", 27), ("LKR", 200), ("RON", mkRat 42 10),
   ("BGN", mkRat 165 100), ("HRK", mkRat 65 10)]

/-- Mirrors `getDefaultRateForCurrency`: `defaultRates[code] || 1.0`.  The
`||` applies JS truthiness to the looked-up number (a present value of `0`
would yield `1.0`). -/
def getDefaultRateForCurrency (code : String) : ℚ :=
  match defaultRates.lookup code with
  | some v => if v = 0 then 1 else v
  | none => 1

/-- Lookup of `baseline?.fiat_rates?.[code]`. -/
def baselineLookup (baseline : Option (List (String × ℚ))) (code : String) :
    Option ℚ :=
  baseline.bind (fun b => b.lookup code)

/-- Truthiness of `baseline?.fiat_rates?.[code]` as used by
`if (baselineRate)`: defined and nonzero. -/
def baselineUsable (baseline : Option (List (String × ℚ))) (code : String) :
    Bool :=
  match baselineLookup baseline code with
  | some q => q != 0
  | none => false

/-- The guard `rates[config.code] && typeof rates[config.code] === 'number'`:
the fetched value is usable iff it is present, numeric and truthy (nonzero). -/
def fetchUsable : Option JsVal → Bool
  | some (JsVal.num q) => q != 0
  | _ => false

/-- The shared innermost `else` block of the reconciliation loop (and,
without its boolean, of the fallback branch): baseline rate if truthy,
otherwise the per-currency default; the boolean is true exactly when the code
is pushed onto `missingCurrencies`. -/
def fallbackEntry (baseline : Option (List (String × ℚ))) (c : FiatConfig) :
    FiatData × Bool :=
  match baselineLookup baseline c.code with
  | some q =>
      if q != 0 then (withRate c q, false)
      else (withRate c (getDefaultRateForCurrency c.code), true)
  | none => (withRate c (getDefaultRateForCurrency c.code), true)

/-- One iteration of the reconciliation loop of `refreshRates` (success
branch), for one configured asset: USD pinned to 1.0, else the fetched value
if usable, else the baseline/default chain.  The boolean reports whether the
code was recorded in `missingCurrencies`. -/
def reconcileEntry (rates : List (String × JsVal))
    (baseline : Option (List (String × ℚ))) (c : FiatConfig) :
    FiatData × Bool :=
  if c.code = "USD" then (withRate c 1, false)
  else
    match rates.lookup c.code with
    | some (JsVal.num q) =>
        if q != 0 then (withRate c q, false) else fallbackEntry baseline c
    | _ => fallbackEntry baseline c

/-- The whole reconciliation loop of the success branch: the produced
`cachedRates` list and the `missingCurrencies` list, both in config order. -/
def reconcileSuccess (cfg : List FiatConfig) (rates : List (String × JsVal))
    (baseline : Option (List (String × ℚ))) : List FiatData × List String :=
  (cfg.map (fun c => (reconcileEntry rates baseline c).1),
   cfg.filterMap (fun c =>
     if (reconcileEntry rates baseline c).2 then some c.code else none))

/-- The `catch` branch of `refreshRates`: `this.fiatConfig.map` over the
baseline/default chain.  No USD special case and no missing tracking. -/
def reconcileFallback (cfg : List FiatConfig)
    (baseline : Option (List (String × ℚ))) : List FiatData :=
  cfg.map (fun c => (fallbackEntry baseline c).1)

/-- One attempt of the closure passed to `withRetry` inside `refreshRates`.
The source's `try`/`catch` around the fetch is the `match` on the fetch
outcome: a thrown fetch/parse failure (`none`) lands in the `catch` branch.
Both branches overwrite `cachedRates`, set `lastFetch` and return the new
list. -/
def refreshAttempt (s : ServiceState)
    (baseline : Option (List (String × ℚ)))
    (fetched : Option (List (String × JsVal))) (now : ℤ) :
    List FiatData × ServiceState :=
  match fetched with
  | some rates =>
      let rs := (reconcileSuccess s.fiatConfig rates baseline).1
      (rs, { s with cachedRates := rs, lastFetch := some now })
  | none =>
      let rs := reconcileFallback s.fiatConfig baseline
      (rs, { s with cachedRates := rs, lastFetch := some now })

/-- Modelled from the spec: `withRetry` (in `src/utils/retry`, not among the
provided sources) retries the wrapped operation a bounded number of times
(default three attempts) with a delay between attempts, re-raising the final
failure if all attempts exhaust.  The delay has no logical effect and is
omitted.  `withRetryGo op attempt remaining` runs attempt `attempt` with
`remaining` further attempts allowed after it. -/
def withRetryGo {α : Type} (op : Nat → Except Unit α) :
    Nat → Nat → Except Unit α
  | attempt, 0 => op attempt
  | attempt, n + 1 =>
      match op attempt with
      | Except.ok a => Except.ok a
      | Except.error _ => withRetryGo op (attempt + 1) n

/-- Modelled from the spec: `withRetry` with the default bound of three
attempts. -/
def withRetry {α : Type} (op : Nat → Except Unit α) : Except Unit α :=
  withRetryGo op 0 2

/-- Number of attempts `withRetry` consumes before returning. -/
def withRetryCount {α : Type} (op : Nat → Except Unit α) :
    Nat → Nat → Nat
  | attempt, 0 => attempt + 1
  | attempt, n + 1 =>
      match op attempt with
      | Except.ok _ => attempt + 1
      | Except.error _ => withRetryCount op (attempt + 1) n

/-- Mirrors `refreshRates`: the whole closure — baseline read, fetch,
reconciliation, and the `catch` fallback — runs inside `withRetry`.  Because
the `catch` swallows the fetch failure, the closure itself never fails.  The
fetch outcome is indexed by attempt number so retry behaviour is
observable. -/
def refreshRates (s : ServiceState)
    (baseline : Option (List (String × ℚ)))
    (fetch : Nat → Option (List (String × JsVal))) (now : ℤ) :
    Except Unit (List FiatData × ServiceState) :=
  withRetry (fun attempt => Except.ok (refreshAttempt s baseline (fetch attempt) now))

/-- Number of attempts the `withRetry` wrapper consumes for a `refreshRates`
call. -/
def refreshAttemptsUsed (s : ServiceState)
    (baseline : Option (List (String × ℚ)))
    (fetch : Nat → Option (List (String × JsVal))) (now : ℤ) : Nat :=
  withRetryCount
    (fun attempt =>
      (Except.ok (refreshAttempt s baseline (fetch attempt) now) :
        Except Unit (List FiatData × ServiceState))) 0 2

/-- Environment of one `getFiatRatesWithWeights` call: what `fiats.json`
parses to (`none` when the read fails), the baseline document, and the fetch
outcome per retry attempt. -/
structure Env where
  fiatsJson : Option (List FiatConfig)
  baseline : Option (List (String × ℚ))
  fetch : Nat → Option (List (String × JsVal))

/-- Observable outcome of one `getFiatRatesWithWeights` call: the returned
list, the post-call state, and whether `refreshRates` was triggered. -/
structure CallResult where
  rates : List FiatData
  state : ServiceState
  didRefresh : Bool
  deriving DecidableEq

/-- The `initialize()` call guarded by `if (!this.fiatConfig.length)`:
`fiatConfig := readJson('fiats.json') || []`. -/
def resolveConfig (s : ServiceState) (env : Env) : ServiceState :=
  if s.fiatConfig.isEmpty then { s with fiatConfig := env.fiatsJson.getD [] }
  else s

/-- Mirrors `getFiatRatesWithWeights`: initialize if the config is empty,
return the cache when it is fresh and non-empty, otherwise refresh. -/
def getFiatRatesWithWeights (s : ServiceState) (env : Env) (now : ℤ) :
    Except Unit CallResult :=
  let s1 := resolveConfig s env
  if !shouldRefreshCache s1 now && !s1.cachedRates.isEmpty then
    Except.ok ⟨s1.cachedRates, s1, false⟩
  else
    (refreshRates s1 env.baseline env.fetch now).map (fun p => ⟨p.1, p.2, true⟩)

/-- The USD value of one cached asset inside `getWeightedFiatAverage`:
`fiat.code === 'USD' ? 1.0 : 1.0 / fiat.rate`. -/
def usdValue (f : FiatData) : ℚ :=
  if f.code = "USD" then 1 else 1 / f.rate

/-- Mirrors `getWeightedFiatAverage`: throws on an empty cache, accumulates
`weightedSum`/`totalWeight` over the cache, throws when the total weight is
zero, else returns the quotient.  Thrown `Error`s are `Except.error` of the
error message. -/
def getWeightedFiatAverage (s : ServiceState) : Except String ℚ :=
  if s.cachedRates.isEmpty then Except.error "No fiat rate data available"
  else
    let acc := s.cachedRates.foldl
      (fun (p : ℚ × ℚ) f => (p.1 + usdValue f * f.weight, p.2 + f.weight))
      (0, 0)
    if acc.2 = 0 then Except.error "Invalid fiat weights"
    else Except.ok (acc.1 / acc.2)

/-- Mirrors `getMissingCurrencies`: configured codes not present among the
cached codes. -/
def getMissingCurrencies (s : ServiceState) : List String :=
  let configCodes := s.fiatConfig.map (fun f => f.code)
  let cachedCodes := s.cachedRates.map (fun r => r.code)
  configCodes.filter (fun code => !cachedCodes.contains code)

/-! Sample configuration entries used by concrete instances. -/

/-- Sample config entry for the reference asset. -/
def cUSD : FiatConfig := ⟨"USD", "US Dollar", 1⟩

/-- Sample config entry for a non-reference asset present in the default
table. -/
def cEUR : FiatConfig := ⟨"EUR", "Euro", 1⟩

/-- Sample config entry for an asset unknown to the default table. -/
def cXYZ : FiatConfig := ⟨"XYZ", "Unknown", 1⟩

/-- Sample environment: empty config file, no baseline, failing fetch. -/
def envW : Env := ⟨some [], none, fun _ => none⟩

/-- Sample state holding a fresh non-empty cache (`lastFetch` at 0). -/
def sHit : ServiceState := ⟨[withRate cUSD 1], [cUSD], some 0⟩

/-- Sample state whose cache holds USD (weight 1, USD value 1) and a second
asset of weight 3 whose rate 1/2 gives USD value 2. -/
def sAvg : ServiceState := ⟨[withRate cUSD 1, ⟨"FOO", "Foo", 3, mkRat 1 2⟩], [], none⟩

/-- Sample pre-refresh state with one configured non-reference asset. -/
def sRty : ServiceState := ⟨[], [cEUR], none⟩

/-- Sample baseline carrying a EUR rate. -/
def bRty : Option (List (String × ℚ)) := some [("EUR", 2)]

/-- A fetch that fails on every attempt. -/
def fFail : Nat → Option (List (String × JsVal)) := fun _ => none

/-! Helper lemmas. -/

theorem lookup_mem {β : Type} {a : String} {b : β} :
    ∀ {l : List (String × β)}, l.lookup a = some b → (a, b) ∈ l := by
  intro l
  induction l with
  | nil => intro h; simp [List.lookup] at h
  | cons p t ih =>
      obtain ⟨k, v⟩ := p
      intro h
      simp only [List.lookup] at h
      cases hak : a == k with
      | true =>
          rw [hak] at h
          obtain rfl : a = k := eq_of_beq hak
          obtain rfl : v = b := by injection h
          exact List.mem_cons_self _ _
      | false =>
          rw [hak] at h
          exact List.mem_cons_of_mem _ (ih h)

theorem defaultRates_ne_zero : ∀ p ∈ defaultRates, p.2 ≠ 0 := by decide

/-- The `||` in `getDefaultRateForCurrency` never fires on a present table
value, because every table value is nonzero. -/
theorem getDefaultRateForCurrency_eq (code : String) :
    getDefaultRateForCurrency code =
      match defaultRates.lookup code with
      | some v => v
      | none => 1 := by
  unfold getDefaultRateForCurrency
  cases h : defaultRates.lookup code with
  | none => rfl
  | some v =>
      have hv : v ≠ 0 := defaultRates_ne_zero (code, v) (lookup_mem h)
      simp [hv]

@[simp] theorem withRate_code (c : FiatConfig) (r : ℚ) :
    (withRate c r).code = c.code := rfl

@[simp] theorem withRate_rate (c : FiatConfig) (r : ℚ) :
    (withRate c r).rate = r := rfl

theorem fallbackEntry_code (b : Option (List (String × ℚ))) (c : FiatConfig) :
    ((fallbackEntry b c).1).code = c.code := by
  unfold fallbackEntry
  cases baselineLookup b c.code with
  | none => rfl
  | some q =>
      dsimp only
      split <;> rfl

theorem reconcileEntry_code (rates : List (String × JsVal))
    (b : Option (List (String × ℚ))) (c : FiatConfig) :
    ((reconcileEntry rates b c).1).code = c.code := by
  unfold reconcileEntry
  split
  · rfl
  · cases rates.lookup c.code with
    | none => exact fallbackEntry_code b c
    | some v =>
        cases v with
        | other => exact fallbackEntry_code b c
        | num q =>
            dsimp only
            split
            · rfl
            · exact fallbackEntry_code b c

theorem reconcileSuccess_codes (cfg : List FiatConfig)
    (rates : List (String × JsVal)) (b : Option (List (String × ℚ))) :
    ((reconcileSuccess cfg rates b).1).map (fun r => r.code)
      = cfg.map (fun c => c.code) := by
  unfold reconcileSuccess
  rw [List.map_map]
  exact List.map_congr_left (fun c _ => reconcileEntry_code rates b c)

theorem reconcileFallback_codes (cfg : List FiatConfig)
    (b : Option (List (String × ℚ))) :
    (reconcileFallback cfg b).map (fun r => r.code)
      = cfg.map (fun c => c.code) := by
  unfold reconcileFallback
  rw [List.map_map]
  exact List.map_congr_left (fun c _ => fallbackEntry_code b c)

/-- The retried closure of `refreshRates` never fails (the fetch failure is
caught inside it), so `withRetry` returns the first attempt's result. -/
theorem refreshRates_eq (s : ServiceState) (b : Option (List (String × ℚ)))
    (f : Nat → Option (List (String × JsVal))) (now : ℤ) :
    refreshRates s b f now = Except.ok (refreshAttempt s b (f 0) now) := rfl

theorem refreshAttempt_snd (s : ServiceState) (b : Option (List (String × ℚ)))
    (fetched : Option (List (String × JsVal))) (now : ℤ) :
    (refreshAttempt s b fetched now).2
      = { s with cachedRates := (refreshAttempt s b fetched now).1,
                 lastFetch := some now } := by
  cases fetched <;> rfl

theorem refreshAttempt_codes (s : ServiceState)
    (b : Option (List (String × ℚ)))
    (fetched : Option (List (String × JsVal))) (now : ℤ) :
    ((refreshAttempt s b fetched now).1).map (fun r => r.code)
      = s.fiatConfig.map (fun c => c.code) := by
  cases fetched with
  | none => exact reconcileFallback_codes s.fiatConfig b
  | some rates => exact reconcileSuccess_codes s.fiatConfig rates b

/-- Characterization of a completed `refreshRates` call: it always succeeds,
the returned list is the first attempt's reconciliation, the new state stores
it with `lastFetch := now`, and its codes are the configured codes. -/
theorem refreshRates_ok_spec (s : ServiceState)
    (b : Option (List (String × ℚ)))
    (f : Nat → Option (List (String × JsVal))) (now : ℤ)
    (rs : List FiatData) (s' : ServiceState)
    (h : refreshRates s b f now = Except.ok (rs, s')) :
    rs = (refreshAttempt s b (f 0) now).1 ∧
    s' = { s with cachedRates := rs, lastFetch := some now } ∧
    rs.map (fun r => r.code) = s.fiatConfig.map (fun c => c.code) := by
  rw [refreshRates_eq] at h
  injection h with h
  have h1 : rs = (refreshAttempt s b (f 0) now).1 := by rw [h]
  have h2 : s' = (refreshAttempt s b (f 0) now).2 := by rw [h]
  refine ⟨h1, ?_, ?_⟩
  · rw [h2, refreshAttempt_snd, ← h1]
  · rw [h1]; exact refreshAttempt_codes s b (f 0) now

theorem resolveConfig_cachedRates (s : ServiceState) (env : Env) :
    (resolveConfig s env).cachedRates = s.cachedRates := by
  unfold resolveConfig; split <;> rfl

theorem resolveConfig_lastFetch (s : ServiceState) (env : Env) :
    (resolveConfig s env).lastFetch = s.lastFetch := by
  unfold resolveConfig; split <;> rfl

theorem foldl_weight_sum (l : List FiatData) (a b : ℚ) :
    l.foldl (fun (p : ℚ × ℚ) f => (p.1 + usdValue f * f.weight, p.2 + f.weight))
        (a, b)
      = (a + (l.map (fun f => usdValue f * f.weight)).sum,
         b + (l.map (fun f => f.weight)).sum) := by
  induction l generalizing a b with
  | nil => simp
  | cons f t ih => simp [ih, add_assoc]

theorem fallbackEntry_rate (b : Option (List (String × ℚ))) (c : FiatConfig) :
    (∀ q, baselineLookup b c.code = some q → q ≠ 0 →
        ((fallbackEntry b c).1).rate = q) ∧
    (baselineUsable b c.code = false →
        ((fallbackEntry b c).1).rate = getDefaultRateForCurrency c.code) := by
  unfold fallbackEntry baselineUsable
  cases h : baselineLookup b c.code with
  | none =>
      exact ⟨fun q hq => absurd hq (by simp), fun _ => rfl⟩
  | some q0 =>
      constructor
      · intro q hq hqne
        obtain rfl : q0 = q := by injection hq
        have hb : (q0 != 0) = true := bne_iff_ne.mpr hqne
        simp [hb]
      · intro hu
        have hb : (q0 != 0) = false := hu
        simp [hb]

theorem reconcileEntry_eq_fallback (rates : List (String × JsVal))
    (b : Option (List (String × ℚ))) (c : FiatConfig)
    (hUSD : c.code ≠ "USD")
    (hFetch : fetchUsable (rates.lookup c.code) = false) :
    reconcileEntry rates b c = fallbackEntry b c := by
  unfold reconcileEntry
  rw [if_neg hUSD]
  cases h : rates.lookup c.code with
  | none => rfl
  | some v =>
      cases v with
      | other => rfl
      | num q =>
          rw [h] at hFetch
          simp only [fetchUsable] at hFetch
          simp [hFetch]

/-- C1: Total coverage — for every configured fiat list, every fetch outcome
(success, partial, or failure: any `f`) and every baseline, a completed
`refreshRates()` produces a cached rate list whose codes are exactly the
configured codes in list order; with duplicate-free configured codes each
appears exactly once — no configured asset is dropped and none is
duplicated. -/
theorem refreshRates_total_coverage (s : ServiceState)
    (b : Option (List (String × ℚ)))
    (f : Nat → Option (List (String × JsVal))) (now : ℤ)
    (rs : List FiatData) (s' : ServiceState)
    (h : refreshRates s b f now = Except.ok (rs, s')) :
    rs.map (fun r => r.code) = s.fiatConfig.map (fun c => c.code) ∧
    s'.cachedRates = rs ∧
    ((s.fiatConfig.map (fun c => c.code)).Nodup →
      ∀ code ∈ s.fiatConfig.map (fun c => c.code),
        (rs.map (fun r => r.code)).count code = 1) := by
  obtain ⟨h1, h2, h3⟩ := refreshRates_ok_spec s b f now rs s' h
  refine ⟨h3, by rw [h2], fun hnd code hc => ?_⟩
  rw [h3]
  exact List.count_eq_one_of_mem hnd hc

/-- Witness for C1: a concrete total-fetch-failure refresh over config
[USD, EUR] still covers both codes, USD once. -/
theorem refreshRates_total_coverage_witness :
    ([withRate cUSD 1, withRate cEUR (mkRat 85 100)] : List FiatData).map
        (fun r => r.code)
      = [cUSD, cEUR].map (fun c => c.code) ∧
    (⟨[withRate cUSD 1, withRate cEUR (mkRat 85 100)], [cUSD, cEUR], some 0⟩ :
        ServiceState).cachedRates
      = [withRate cUSD 1, withRate cEUR (mkRat 85 100)] ∧
    (([withRate cUSD 1, withRate cEUR (mkRat 85 100)] : List FiatData).map
        (fun r => r.code)).count "USD" = 1 := by
  have h := refreshRates_total_coverage ⟨[], [cUSD, cEUR], none⟩ none
      (fun _ => none) 0
      [withRate cUSD 1, withRate cEUR (mkRat 85 100)]
      ⟨[withRate cUSD 1, withRate cEUR (mkRat 85 100)], [cUSD, cEUR], some 0⟩
      (by decide)
  exact ⟨h.1, h.2.1, h.2.2 (by decide) "USD" (by decide)⟩

/-- C2: Fallback order — for a non-reference code whose fetched entry is not
usable (absent, non-numeric or zero), the reconciled rate equals the baseline
rate when the baseline has a usable (truthy) entry; when the baseline has no
usable entry either, it equals the static default-table value, or 1.0 for
codes not in the table. -/
theorem fallback_order (rates : List (String × JsVal))
    (b : Option (List (String × ℚ))) (c : FiatConfig)
    (hUSD : c.code ≠ "USD")
    (hFetch : fetchUsable (rates.lookup c.code) = false) :
    (∀ q, baselineLookup b c.code = some q → q ≠ 0 →
        ((reconcileEntry rates b c).1).rate = q) ∧
    (baselineUsable b c.code = false →
        ((reconcileEntry rates b c).1).rate =
          match defaultRates.lookup c.code with
          | some v => v
          | none => 1) := by
  rw [reconcileEntry_eq_fallback rates b c hUSD hFetch]
  refine ⟨(fallbackEntry_rate b c).1, fun hb => ?_⟩
  rw [(fallbackEntry_rate b c).2 hb]
  exact getDefaultRateForCurrency_eq c.code

/-- Witness for C2: EUR absent from the fetch takes the baseline rate 92/100;
XYZ absent from fetch and baseline takes the default 1. -/
theorem fallback_order_witness :
    ((reconcileEntry [] (some [("EUR", mkRat 92 100)]) cEUR).1).rate
      = mkRat 92 100 ∧
    ((reconcileEntry [] (some [("EUR", mkRat 92 100)]) cXYZ).1).rate = 1 := by
  constructor
  · exact (fallback_order [] (some [("EUR", mkRat 92 100)]) cEUR (by decide)
      (by decide)).1 (mkRat 92 100) (by decide) (by decide)
  · exact (fallback_order [] (some [("EUR", mkRat 92 100)]) cXYZ (by decide)
      (by decide)).2 (by decide)

/-- C3 counterexample: the fallback branch has no USD special case.  With
config [USD], a failing fetch and a baseline whose `fiat_rates.USD` is 2, the
completed `refreshRates()` stores USD at rate 2, not 1 — so the USD entry is
not 1.0 "regardless of baseline content". -/
theorem reference_asset_cex :
    refreshRates ⟨[], [cUSD], none⟩ (some [("USD", 2)]) (fun _ => none) 0
      = Except.ok ([withRate cUSD 2],
                   ⟨[withRate cUSD 2], [cUSD], some 0⟩) ∧
    (withRate cUSD 2).rate ≠ 1 := ⟨by decide, by decide⟩

theorem getDefaultRateForCurrency_USD : getDefaultRateForCurrency "USD" = 1 := by
  decide

/-- C3 (amended): in the success branch of `refreshRates()` the USD entry is
pinned to rate 1 regardless of fetch and baseline content; in the
baseline-fallback branch the USD entry follows the baseline-then-default
chain — it equals the truthy baseline USD rate when one exists (not
necessarily 1), and 1 otherwise (USD is absent from the default table). -/
theorem reference_asset_amended (s : ServiceState)
    (b : Option (List (String × ℚ)))
    (f : Nat → Option (List (String × JsVal))) (now : ℤ)
    (rs : List FiatData) (s' : ServiceState)
    (h : refreshRates s b f now = Except.ok (rs, s')) :
    (∀ rates, f 0 = some rates → ∀ r ∈ rs, r.code = "USD" → r.rate = 1) ∧
    (f 0 = none → ∀ r ∈ rs, r.code = "USD" →
        r.rate = match baselineLookup b "USD" with
          | some q => if q != 0 then q else 1
          | none => 1) := by
  obtain ⟨h1, -, -⟩ := refreshRates_ok_spec s b f now rs s' h
  constructor
  · intro rates hf r hr hcode
    rw [h1, hf] at hr
    simp only [refreshAttempt, reconcileSuccess] at hr
    obtain ⟨c, -, rfl⟩ := List.mem_map.mp hr
    have hc : c.code = "USD" := by rw [← reconcileEntry_code rates b c]; exact hcode
    unfold reconcileEntry
    rw [if_pos hc]
    rfl
  · intro hf r hr hcode
    rw [h1, hf] at hr
    simp only [refreshAttempt, reconcileFallback] at hr
    obtain ⟨c, -, rfl⟩ := List.mem_map.mp hr
    have hc : c.code = "USD" := by rw [← fallbackEntry_code b c]; exact hcode
    unfold fallbackEntry
    rw [hc]
    cases baselineLookup b "USD" with
    | none => simp [getDefaultRateForCurrency_USD]
    | some q =>
        dsimp only
        cases hq : (q != 0) with
        | true => simp [hq]
        | false => simp [hq, getDefaultRateForCurrency_USD]

/-- Witness for C3 (amended): in a concrete successful fetch whose response
even carries a USD quote of 50, the reconciled USD entry still has rate 1. -/
theorem reference_asset_amended_witness :
    (withRate cUSD 1).rate = 1 := by
  have h := reference_asset_amended ⟨[], [cUSD], none⟩ (some [("USD", 2)])
      (fun _ => some [("USD", JsVal.num 50)]) 0
      [withRate cUSD 1] ⟨[withRate cUSD 1], [cUSD], some 0⟩ (by decide)
  exact h.1 [("USD", JsVal.num 50)] rfl (withRate cUSD 1) (by decide) rfl

/-- C4 counterexample: a strictly negative fetched rate passes the guard
`rates[code] && typeof rates[code] === 'number'` (it is truthy and numeric),
so with config [EUR] and fetch {EUR: -5} the reconciled snapshot holds rate
-5 — a non-positive fetched value is not replaced and the snapshot is not
strictly positive. -/
theorem positive_rate_cex :
    refreshRates ⟨[], [cEUR], none⟩ none
        (fun _ => some [("EUR", JsVal.num (-5))]) 0
      = Except.ok ([withRate cEUR (-5)],
                   ⟨[withRate cEUR (-5)], [cEUR], some 0⟩) ∧
    ¬ (0 < (withRate cEUR (-5)).rate) := ⟨by decide, by decide⟩

/-- C4 (amended): for a non-reference code, a fetched value that is zero,
non-numeric, or missing is treated as invalid and replaced via the same
baseline-then-default chain as a missing rate; any nonzero fetched number —
including strictly negative ones — is used as-is, so reconciled rates are
not guaranteed to be positive. -/
theorem positive_rate_amended (rates : List (String × JsVal))
    (b : Option (List (String × ℚ))) (c : FiatConfig)
    (hUSD : c.code ≠ "USD") :
    (rates.lookup c.code = some (JsVal.num 0) →
        reconcileEntry rates b c = fallbackEntry b c) ∧
    (rates.lookup c.code = some JsVal.other →
        reconcileEntry rates b c = fallbackEntry b c) ∧
    (rates.lookup c.code = none →
        reconcileEntry rates b c = fallbackEntry b c) ∧
    (∀ q, q ≠ 0 → rates.lookup c.code = some (JsVal.num q) →
        ((reconcileEntry rates b c).1).rate = q) := by
  refine ⟨fun h => reconcileEntry_eq_fallback rates b c hUSD (by rw [h]; decide),
          fun h => reconcileEntry_eq_fallback rates b c hUSD (by rw [h]; decide),
          fun h => reconcileEntry_eq_fallback rates b c hUSD (by rw [h]; decide),
          fun q hq h => ?_⟩
  unfold reconcileEntry
  rw [if_neg hUSD, h]
  have hb : (q != 0) = true := bne_iff_ne.mpr hq
  simp [hb]

/-- Witness for C4 (amended): a fetched zero for EUR is replaced via the
fallback chain, while a fetched -5 is used unchanged. -/
theorem positive_rate_amended_witness :
    reconcileEntry [("EUR", JsVal.num 0)] (some [("EUR", mkRat 92 100)]) cEUR
      = fallbackEntry (some [("EUR", mkRat 92 100)]) cEUR ∧
    ((reconcileEntry [("EUR", JsVal.num (-5))] (some [("EUR", mkRat 92 100)])
        cEUR).1).rate = -5 := by
  constructor
  · exact (positive_rate_amended [("EUR", JsVal.num 0)]
      (some [("EUR", mkRat 92 100)]) cEUR (by decide)).1 (by decide)
  · exact (positive_rate_amended [("EUR", JsVal.num (-5))]
      (some [("EUR", mkRat 92 100)]) cEUR (by decide)).2.2.2 (-5) (by decide)
      (by decide)

/-- C5 counterexample: in the spec's end-to-end scenario — config
[USD, EUR, XYZ], fetch {EUR: 0.9}, baseline without XYZ — XYZ falls to the
DEFAULT tier (the loop records it in its local `missingCurrencies`), yet
`getMissingCurrencies()` afterwards returns [], not ["XYZ"]: it recomputes
config-codes minus cached-codes, which reconciliation always makes empty. -/
theorem missing_currencies_cex :
    refreshRates ⟨[], [cUSD, cEUR, cXYZ], none⟩ (some [("EUR", mkRat 92 100)])
        (fun _ => some [("EUR", JsVal.num (mkRat 9 10))]) 0
      = Except.ok
          ([withRate cUSD 1, withRate cEUR (mkRat 9 10), withRate cXYZ 1],
           ⟨[withRate cUSD 1, withRate cEUR (mkRat 9 10), withRate cXYZ 1],
            [cUSD, cEUR, cXYZ], some 0⟩) ∧
    (reconcileSuccess [cUSD, cEUR, cXYZ] [("EUR", JsVal.num (mkRat 9 10))]
        (some [("EUR", mkRat 92 100)])).2 = ["XYZ"] ∧
    getMissingCurrencies
        ⟨[withRate cUSD 1, withRate cEUR (mkRat 9 10), withRate cXYZ 1],
         [cUSD, cEUR, cXYZ], some 0⟩ = [] ∧
    ([] : List String) ≠ ["XYZ"] :=
  ⟨by decide, by decide, by decide, by decide⟩

/-- C5 (amended): `getMissingCurrencies()` returns the configured codes not
present in the cached list; because reconciliation covers every configured
code, it returns [] after any completed `refreshRates()` — the codes that
fell to the DEFAULT tier are only collected into a local variable and logged,
never exposed. -/
theorem missing_currencies_amended (s : ServiceState)
    (b : Option (List (String × ℚ)))
    (f : Nat → Option (List (String × JsVal))) (now : ℤ)
    (rs : List FiatData) (s' : ServiceState)
    (h : refreshRates s b f now = Except.ok (rs, s')) :
    getMissingCurrencies s' = [] := by
  obtain ⟨-, h2, h3⟩ := refreshRates_ok_spec s b f now rs s' h
  unfold getMissingCurrencies
  rw [h2]
  dsimp only
  rw [h3]
  rw [List.filter_eq_nil_iff]
  intro a ha
  simp [List.contains, List.elem_iff, ha]

/-- Witness for C5 (amended): the end-to-end scenario instantiated at a
later timestamp. -/
theorem missing_currencies_amended_witness :
    getMissingCurrencies
        ⟨[withRate cUSD 1, withRate cEUR (mkRat 9 10), withRate cXYZ 1],
         [cUSD, cEUR, cXYZ], some 5⟩ = [] :=
  missing_currencies_amended ⟨[], [cUSD, cEUR, cXYZ], none⟩
    (some [("EUR", mkRat 92 100)])
    (fun _ => some [("EUR", JsVal.num (mkRat 9 10))]) 5
    [withRate cUSD 1, withRate cEUR (mkRat 9 10), withRate cXYZ 1]
    ⟨[withRate cUSD 1, withRate cEUR (mkRat 9 10), withRate cXYZ 1],
     [cUSD, cEUR, cXYZ], some 5⟩ (by decide)

/-- C6: Weighted average correctness — for every non-empty cached rate list
with positive total weight, `getWeightedFiatAverage()` returns exactly
Σ(usdValue × weight) / Σ(weight), where usdValue is 1 for the USD entry
(a documented special case, not computed by division) and 1/rate for every
other entry. -/
theorem weighted_average_correct (s : ServiceState)
    (hne : s.cachedRates ≠ [])
    (hw : 0 < (s.cachedRates.map (fun f => f.weight)).sum) :
    getWeightedFiatAverage s = Except.ok
      ((s.cachedRates.map
          (fun f => (if f.code = "USD" then 1 else 1 / f.rate) * f.weight)).sum
        / (s.cachedRates.map (fun f => f.weight)).sum) := by
  unfold getWeightedFiatAverage
  have hemp : ¬ (s.cachedRates.isEmpty = true) := by
    simp [List.isEmpty_iff, hne]
  rw [if_neg hemp]
  simp only [foldl_weight_sum, zero_add]
  rw [if_neg hw.ne']
  rfl

/-- Witness for C6: weights {USD: 1, FOO: 3} with USD values {1, 2} average
to 7/4, the spec's 1.75. -/
theorem weighted_average_correct_witness :
    getWeightedFiatAverage sAvg = Except.ok (7 / 4) ∧ (7 / 4 : ℚ) = 1.75 := by
  constructor
  · have h := weighted_average_correct sAvg (by decide)
      (by simp [sAvg, withRate, cUSD]; norm_num)
    rw [h]
    simp [sAvg, withRate, cUSD]
    norm_num
  · norm_num

/-- C7: Averaging preconditions fail explicitly —
`getWeightedFiatAverage()` fails with the explicit "No fiat rate data
available" error on an empty cached list, and with the explicit "Invalid
fiat weights" error on a non-empty list whose weights sum to exactly zero;
in both cases the result is an error, not a returned number. -/
theorem weighted_average_failures (s : ServiceState) :
    (s.cachedRates = [] →
        getWeightedFiatAverage s = Except.error "No fiat rate data available") ∧
    (s.cachedRates ≠ [] → (s.cachedRates.map (fun f => f.weight)).sum = 0 →
        getWeightedFiatAverage s = Except.error "Invalid fiat weights") := by
  constructor
  · intro h
    unfold getWeightedFiatAverage
    rw [h]
    rfl
  · intro hne hsum
    unfold getWeightedFiatAverage
    have hemp : ¬ (s.cachedRates.isEmpty = true) := by
      simp [List.isEmpty_iff, hne]
    rw [if_neg hemp]
    simp only [foldl_weight_sum, zero_add]
    rw [if_pos hsum]

/-- Witness for C7: the empty cache and an all-zero-weight cache both
produce the explicit errors. -/
theorem weighted_average_failures_witness :
    getWeightedFiatAverage ⟨[], [], none⟩
      = Except.error "No fiat rate data available" ∧
    getWeightedFiatAverage ⟨[⟨"EUR", "Euro", 0, 2⟩], [], none⟩
      = Except.error "Invalid fiat weights" := by
  constructor
  · exact (weighted_average_failures ⟨[], [], none⟩).1 rfl
  · exact (weighted_average_failures ⟨[⟨"EUR", "Euro", 0, 2⟩], [], none⟩).2
      (by decide) (by simp)

/-- C8 counterexample: after a completed refresh over an empty config the
snapshot is fresh (age 1 ms ≤ TTL) but empty, and the next
`getFiatRatesWithWeights()` call still triggers a refresh (didRefresh =
true) and moves `lastFetch` from 0 to 1 — refuting the claim that every
within-TTL second call returns the cached snapshot without refreshing. -/
theorem cache_ttl_cex :
    getFiatRatesWithWeights ⟨[], [], none⟩ envW 0
      = Except.ok ⟨[], ⟨[], [], some 0⟩, true⟩ ∧
    getFiatRatesWithWeights ⟨[], [], some 0⟩ envW 1
      = Except.ok ⟨[], ⟨[], [], some 1⟩, true⟩ ∧
    ((1 : ℤ) - 0 ≤ CACHE_DURATION) ∧
    (true ≠ false) ∧ (some (1 : ℤ) ≠ some 0) :=
  ⟨by decide, by decide, by decide, by decide, by decide⟩

theorem shouldRefreshCache_resolveConfig (s : ServiceState) (env : Env)
    (now : ℤ) :
    shouldRefreshCache (resolveConfig s env) now = shouldRefreshCache s now := by
  unfold shouldRefreshCache
  rw [resolveConfig_lastFetch]

/-- C8 (amended): a `getFiatRatesWithWeights()` call made while the
snapshot's age does not exceed the 60-second TTL *and the cached rate list
is non-empty* returns the identical cached list without triggering a refresh
and leaves `lastFetch` untouched; a call when the age exceeds the TTL, or
when no fetch ever completed, triggers a refresh whose completion sets
`lastFetch` to the call time. -/
theorem cache_ttl_amended (s : ServiceState) (env : Env) (now : ℤ) :
    (∀ t, s.lastFetch = some t → now - t ≤ CACHE_DURATION →
        s.cachedRates ≠ [] →
        getFiatRatesWithWeights s env now
          = Except.ok ⟨s.cachedRates, resolveConfig s env, false⟩ ∧
        (resolveConfig s env).cachedRates = s.cachedRates ∧
        (resolveConfig s env).lastFetch = s.lastFetch) ∧
    ((s.lastFetch = none ∨
        ∃ t, s.lastFetch = some t ∧ CACHE_DURATION < now - t) →
        (getFiatRatesWithWeights s env now).map (fun r => r.didRefresh)
          = Except.ok true ∧
        (getFiatRatesWithWeights s env now).map (fun r => r.state.lastFetch)
          = Except.ok (some now)) := by
  constructor
  · intro t ht hle hne
    have h1 : shouldRefreshCache (resolveConfig s env) now = false := by
      rw [shouldRefreshCache_resolveConfig]
      unfold shouldRefreshCache
      rw [ht]
      simp only [decide_eq_false_iff_not]
      exact not_lt.mpr hle
    have h2 : s.cachedRates.isEmpty = false := by
      rw [Bool.eq_false_iff]
      simp [List.isEmpty_iff, hne]
    refine ⟨?_, resolveConfig_cachedRates s env, resolveConfig_lastFetch s env⟩
    simp only [getFiatRatesWithWeights, h1, resolveConfig_cachedRates, h2,
      Bool.not_false, Bool.and_self, if_true]
  · intro hdisj
    have h1 : shouldRefreshCache (resolveConfig s env) now = true := by
      rw [shouldRefreshCache_resolveConfig]
      unfold shouldRefreshCache
      rcases hdisj with hnone | ⟨t, ht, hlt⟩
      · rw [hnone]
      · rw [ht]
        simp only [decide_eq_true_eq]
        exact hlt
    have hcond : (!shouldRefreshCache (resolveConfig s env) now
        && !(resolveConfig s env).cachedRates.isEmpty) = false := by
      rw [h1]
      rfl
    constructor
    · simp only [getFiatRatesWithWeights, hcond, Bool.false_eq_true, if_false,
        refreshRates_eq, Except.map]
    · simp only [getFiatRatesWithWeights, hcond, Bool.false_eq_true, if_false,
        refreshRates_eq, Except.map, refreshAttempt_snd]

/-- Witness for C8 (amended): a fresh non-empty cache at age 1 ms is
returned unchanged with no refresh. -/
theorem cache_ttl_amended_witness :
    getFiatRatesWithWeights sHit envW 1
      = Except.ok ⟨sHit.cachedRates, resolveConfig sHit envW, false⟩ ∧
    (resolveConfig sHit envW).cachedRates = sHit.cachedRates ∧
    (resolveConfig sHit envW).lastFetch = sHit.lastFetch :=
  (cache_ttl_amended sHit envW 1).1 0 rfl (by decide) (by decide)

/-- C9 counterexample: with a fetch that fails on every attempt, a completed
`refreshRates()` returns the baseline/default reconciliation after consuming
exactly one of the three retry attempts — the fallback path runs inside the
retried closure on the first failure, not "only after all retry attempts are
exhausted". -/
theorem retry_fallback_cex :
    refreshRates ⟨[], [cEUR], none⟩ (some [("EUR", 2)]) (fun _ => none) 0
      = Except.ok ([withRate cEUR 2],
                   ⟨[withRate cEUR 2], [cEUR], some 0⟩) ∧
    [withRate cEUR 2] = reconcileFallback [cEUR] (some [("EUR", 2)]) ∧
    refreshAttemptsUsed ⟨[], [cEUR], none⟩ (some [("EUR", 2)])
        (fun _ => none) 0 = 1 ∧
    (1 : ℕ) ≠ 3 :=
  ⟨by decide, by decide, by decide, by decide⟩

/-- C9 (amended): `withRetry` wraps the whole refresh closure, including the
catch that performs the baseline fallback; since that catch swallows the
fetch failure, every `refreshRates()` completes on its first attempt with the
first attempt's reconciliation — on a failed fetch the baseline/default
reconciliation is engaged immediately, and no fetch failure ever propagates
to the caller. -/
theorem retry_fallback_amended (s : ServiceState)
    (b : Option (List (String × ℚ)))
    (f : Nat → Option (List (String × JsVal))) (now : ℤ) :
    refreshRates s b f now = Except.ok (refreshAttempt s b (f 0) now) ∧
    refreshAttemptsUsed s b f now = 1 ∧
    (f 0 = none →
        (refreshAttempt s b (f 0) now).1 = reconcileFallback s.fiatConfig b) := by
  refine ⟨refreshRates_eq s b f now, rfl, fun h => ?_⟩
  rw [h]
  rfl

/-- Witness for C9 (amended): a concrete always-failing fetch run. -/
theorem retry_fallback_amended_witness :
    refreshRates sRty bRty fFail 5
      = Except.ok (refreshAttempt sRty bRty (fFail 0) 5) ∧
    refreshAttemptsUsed sRty bRty fFail 5 = 1 ∧
    (refreshAttempt sRty bRty (fFail 0) 5).1
      = reconcileFallback sRty.fiatConfig bRty :=
  ⟨(retry_fallback_amended sRty bRty fFail 5).1,
   (retry_fallback_amended sRty bRty fFail 5).2.1,
   (retry_fallback_amended sRty bRty fFail 5).2.2 rfl⟩

/-- C10: Implicit cache-hit precondition — `getFiatRatesWithWeights()`
returns without refreshing only when the cached snapshot is both fresh
(a fetch completed within the TTL) and non-empty; a call whose snapshot is
within the TTL but whose cached list is empty still triggers the refresh
path. -/
theorem cache_hit_precondition (s : ServiceState) (env : Env) (now : ℤ) :
    (∀ r, getFiatRatesWithWeights s env now = Except.ok r →
        r.didRefresh = false →
        s.cachedRates ≠ [] ∧ s.lastFetch ≠ none ∧
        ∀ t, s.lastFetch = some t → now - t ≤ CACHE_DURATION) ∧
    (∀ t, s.lastFetch = some t → now - t ≤ CACHE_DURATION →
        s.cachedRates = [] →
        (getFiatRatesWithWeights s env now).map (fun r => r.didRefresh)
          = Except.ok true) := by
  constructor
  · intro r hok hdr
    by_cases hc : (!shouldRefreshCache (resolveConfig s env) now
        && !(resolveConfig s env).cachedRates.isEmpty) = true
    · obtain ⟨hs, hi⟩ := Bool.and_eq_true_iff.mp hc
      rw [Bool.not_eq_true'] at hs hi
      rw [shouldRefreshCache_resolveConfig] at hs
      rw [resolveConfig_cachedRates] at hi
      have hne : s.cachedRates ≠ [] := by
        intro hnil
        rw [hnil] at hi
        simp at hi
      refine ⟨hne, ?_, ?_⟩
      · intro hnone
        unfold shouldRefreshCache at hs
        rw [hnone] at hs
        simp at hs
      · intro t ht
        unfold shouldRefreshCache at hs
        rw [ht] at hs
        simp only [decide_eq_false_iff_not, not_lt] at hs
        exact hs
    · exfalso
      rw [Bool.not_eq_true] at hc
      have : getFiatRatesWithWeights s env now
          = Except.ok ⟨(refreshAttempt (resolveConfig s env) env.baseline
              (env.fetch 0) now).1,
            (refreshAttempt (resolveConfig s env) env.baseline
              (env.fetch 0) now).2, true⟩ := by
        simp only [getFiatRatesWithWeights, hc, Bool.false_eq_true, if_false,
          refreshRates_eq, Except.map]
      rw [this] at hok
      injection hok with hok
      rw [← hok] at hdr
      simp at hdr
  · intro t ht hle hempty
    have hcond : (!shouldRefreshCache (resolveConfig s env) now
        && !(resolveConfig s env).cachedRates.isEmpty) = false := by
      rw [resolveConfig_cachedRates, hempty]
      simp
    simp only [getFiatRatesWithWeights, hcond, Bool.false_eq_true, if_false,
      refreshRates_eq, Except.map]

/-- Witness for C10: a genuine cache hit implies non-emptiness, and a fresh
but empty cache still refreshes. -/
theorem cache_hit_precondition_witness :
    sHit.cachedRates ≠ [] ∧
    (getFiatRatesWithWeights ⟨[], [], some 0⟩ envW 1).map
        (fun r => r.didRefresh) = Except.ok true :=
  ⟨((cache_hit_precondition sHit envW 1).1
      ⟨sHit.cachedRates, resolveConfig sHit envW, false⟩ (by decide) rfl).1,
   (cache_hit_precondition ⟨[], [], some 0⟩ envW 1).2 0 rfl (by decide) rfl⟩

end AvgxFiat
